import Mathlib

/-!
Shallow embedding of the FitUploader synchronization engine.

This file embeds, in Lean 4, the parts of the FitUploader repository that the
verification claims are about:

* the Content Transformer (`FitFileProcessor.cleanup_fit_file`,
  `FitFileProcessor._calculate_avg`, `FitFileProcessor._append_value` in
  `fituploader.py`, and the legacy `calculate_avg` / `cleanup_fit_file` in
  `FitUploader.py`);
* the Processed-Set Tracker (`FitFileManager.is_file_processed`,
  `FitFileManager.mark_file_processed`);
* the Upload Dispatcher (`GarminUploader._upload_file_with_retry`,
  `GarminUploader.upload_files`);
* the Settings Store (`ConfigManager.load`, `ConfigManager._validate_config`,
  `ConfigManager.save`).

Machine integers of the source are embedded as `Nat` (all the relevant FIT
sample fields — cadence, power, heart rate — are unsigned); Python's
`int(sum/len)` on strictly positive operands agrees with truncated natural
division whenever the double-precision quotient does not cross an integer
boundary, which holds for every sum below `2^53` and in particular for all
accumulator contents reachable from FIT sample fields.  Fallible operations
are embedded with `Except`/`Option`, and the effectful parts (file system,
network transport, clock) are passed in explicitly as values.
-/

namespace FitUploader

/-! ## Content Transformer — `FitFileProcessor` (`fituploader.py`)

`_calculate_avg(values)` is
`valid_values = [v for v in values if v is not None and v > 0]`;
`return int(sum(valid_values) / len(valid_values)) if valid_values else 0`.
The accumulator lists only ever receive `Nat` values (`_append_value`
substitutes `0` for a missing field), so the `is not None` guard is vacuous
here and the `v > 0` filter is `0 < v`. -/
def calculateAvg (values : List Nat) : Nat :=
  let validValues := values.filter (fun v => 0 < v)
  if validValues.isEmpty then 0 else validValues.sum / validValues.length

/-- Legacy transformer helper `calculate_avg` of `FitUploader.py`:
`return sum(values) / len(values) if values else 0`.  Python's `/` is true
division, so the result is the exact rational mean (no filtering of zeros and
no integer truncation happens, despite the `-> int` annotation, which Python
does not enforce). -/
def legacyCalculateAvg (values : List Nat) : ℚ :=
  if values.isEmpty then 0 else (values.sum : ℚ) / (values.length : ℚ)

/-- The record stream of a FIT file, as the transformer's dispatch sees it
(`LapMessage`, `RecordMessage`, `SessionMessage`, everything else opaque).
Sample fields and session averages may be absent (`none`); the session
truthiness test `not message.avg_x` treats both `None` and `0` as missing. -/
inductive FitMessage where
  | lap
  | record (cadence power heartRate temperature : Option Nat)
  | session (avgCadence avgPower avgHeartRate : Option Nat)
  | other (payload : Nat)
  deriving DecidableEq, Repr

/-- Embeds `_append_value(values, message, field)`: appends the field's value,
substituting `0` when the field is absent. -/
def appendValue (values : List Nat) (fieldValue : Option Nat) : List Nat :=
  values ++ [fieldValue.getD 0]

/-- Python truthiness of an optional numeric average:
`not message.avg_x` holds exactly when the value is `None` or `0`. -/
def avgMissing : Option Nat → Bool
  | none => true
  | some v => v == 0

/-- The session-summary update of `cleanup_fit_file`:
`if not message.avg_x and x_values: message.avg_x = _calculate_avg(x_values)`. -/
def fixAvg (avg : Option Nat) (values : List Nat) : Option Nat :=
  if avgMissing avg && !values.isEmpty then some (calculateAvg values) else avg

/-- The record-stream loop of `FitFileProcessor.cleanup_fit_file`, carrying the
three accumulator lists: laps are skipped (`continue`, never added to the
builder), per-sample records lose their temperature field and feed the
accumulators, session summaries get missing averages recomputed and reset the
accumulators, and every other message is added to the builder unchanged. -/
def cleanupGo : List FitMessage → List Nat → List Nat → List Nat → List FitMessage
  | [], _, _, _ => []
  | .lap :: rest, cad, pow, hr => cleanupGo rest cad pow hr
  | .record c p h _ :: rest, cad, pow, hr =>
      .record c p h none ::
        cleanupGo rest (appendValue cad c) (appendValue pow p) (appendValue hr h)
  | .session ac ap ah :: rest, cad, pow, hr =>
      .session (fixAvg ac cad) (fixAvg ap pow) (fixAvg ah hr) ::
        cleanupGo rest [] [] []
  | .other n :: rest, cad, pow, hr => .other n :: cleanupGo rest cad pow hr

/-- The record transformation of `FitFileProcessor.cleanup_fit_file`, started with
the three empty accumulators (`cadence_values, power_values, heart_rate_values
= [], [], []`). -/
def cleanupRecords (input : List FitMessage) : List FitMessage :=
  cleanupGo input [] [] []

/-- A file system mapping paths to parsed record streams, for the frame
property of the transformer: `cleanup_fit_file` reads `fit_file_path` and
writes only `new_file_path` (`builder.build().to_file(str(new_file_path))`).
Missing source file makes the operation fail (`return False`) and touch
nothing. -/
def FitFs := String → Option (List FitMessage)

/-- Embeds `FitFileProcessor.cleanup_fit_file(fit_file_path, new_file_path)` at the
file-system level: on success the destination holds the transformed record
stream and every other path — the source included — is unchanged. -/
def cleanupFitFile (fs : FitFs) (src dst : String) : Bool × FitFs :=
  match fs src with
  | none => (false, fs)
  | some records =>
      (true, fun p => if p = dst then some (cleanupRecords records) else fs p)

/-- The four kinds of message the transformer dispatches on. -/
inductive MsgKind where
  | lap
  | record
  | session
  | other
  deriving DecidableEq, Repr

def kindOf : FitMessage → MsgKind
  | .lap => .lap
  | .record _ _ _ _ => .record
  | .session _ _ _ => .session
  | .other _ => .other

def isLap (m : FitMessage) : Bool := kindOf m == .lap

def isOther (m : FitMessage) : Bool := kindOf m == .other

/-! ## Processed-Set Tracker — `FitFileManager` (`fituploader.py`)

The `processed_files` configuration entry is a JSON object (a Python `dict`);
we embed it as an insertion-ordered association list with Python's
overwrite-in-place update semantics. -/

/-- The identity attributes of a `FileInfo` that the tracker uses
(`name`, `path`, `file_hash`, `size_bytes`); `file_hash = ""` is the
truthiness-false value `_calculate_hash` returns on failure. -/
structure FileInfo where
  name : String
  path : String
  fileHash : String
  sizeBytes : Nat
  deriving DecidableEq, Repr

/-- A ledger row written by `mark_file_processed`:
`{'timestamp': ..., 'hash': ..., 'size': ..., 'path': ...}`. -/
structure ProcessedEntry where
  timestamp : String
  hash : String
  size : Nat
  path : String
  deriving DecidableEq, Repr

/-- A value stored under a key of `processed_files`: entries written by
`mark_file_processed` are dicts; legacy entries may be non-dict values, which
`is_file_processed`'s `isinstance(data, dict)` guard skips. -/
inductive LedgerValue where
  | entry (e : ProcessedEntry)
  | legacyRaw (raw : String)
  deriving DecidableEq, Repr

def Ledger := List (String × LedgerValue)

/-- Python dict assignment `d[k] = v`: overwrites in place when the key
exists, appends otherwise (dicts preserve insertion order). -/
def dictInsert {α : Type} (k : String) (v : α) : List (String × α) → List (String × α)
  | [] => [(k, v)]
  | (k', v') :: rest => if k' = k then (k, v) :: rest else (k', v') :: dictInsert k v rest

/-- Python dict lookup `d.get(k)` / `k in d`. -/
def lookupKV {α : Type} (k : String) : List (String × α) → Option α
  | [] => none
  | (k', v') :: rest => if k' = k then some v' else lookupKV k rest

/-- The composite key `f"{file_info.name}_{file_info.size_bytes}"`. -/
def fileKey (fi : FileInfo) : String := fi.name ++ "_" ++ toString fi.sizeBytes

/-- Embeds `isinstance(data, dict) and data.get('hash') == file_info.file_hash`. -/
def hashMatches (h : String) : LedgerValue → Bool
  | .entry e => e.hash == h
  | .legacyRaw _ => false

/-- Embeds `FitFileManager.is_file_processed`: when the record's hash is non-empty,
any ledger value that is a dict with an equal `'hash'` suffices; otherwise
(or when no hash matches) fall back to composite-key membership
`f"{name}_{size_bytes}" in processed_info`. -/
def isFileProcessed (fi : FileInfo) (ledger : Ledger) : Bool :=
  (fi.fileHash != "" && ledger.any fun kv => hashMatches fi.fileHash kv.2) ||
  (lookupKV (fileKey fi) ledger).isSome

/-- Embeds `FitFileManager.mark_file_processed`: overwrite/insert the composite-key
row with the current timestamp, the record's hash, size and path. -/
def markFileProcessed (fi : FileInfo) (ts : String) (ledger : Ledger) : Ledger :=
  dictInsert (fileKey fi) (.entry ⟨ts, fi.fileHash, fi.sizeBytes, fi.path⟩) ledger

/-! ## Upload Dispatcher — `GarminUploader` (`fituploader.py`) -/

/-- Embeds `AppConfig.MAX_RETRY_ATTEMPTS`. -/
def MAX_RETRY_ATTEMPTS : Nat := 3

/-- What one iteration of `_upload_file_with_retry`'s attempt loop observes
from the session manager and the transport: either `refresh_session()` fails,
or `garth.client.upload` succeeds, or it raises an exception classified by
the substring tests on its message (`"409"`/`"duplicate"`,
`"401"`/`"unauthorized"`, `"429"`/`"rate limit"`,
`"timeout"`/`"connection"`/`"network"`, anything else). -/
inductive AttemptOutcome where
  | sessionExpired
  | uploaded
  | duplicate409
  | unauthorized401
  | rateLimited429
  | networkTimeout
  | otherError
  deriving DecidableEq, Repr

/-- The observable result of `_upload_file_with_retry`: the returned
`(success, is_duplicate)` pair, the number of loop iterations entered, and
the sequence of `time.sleep` waits (in seconds) performed by the backoff
branches. -/
structure RetryResult where
  success : Bool
  isDuplicate : Bool
  attemptsUsed : Nat
  sleeps : List Nat
  deriving DecidableEq, Repr

/-- The `for attempt in range(max_retries)` loop of
`_upload_file_with_retry`, one transport observation per iteration.
`fuel` is the number of iterations the range still allows
(`max_retries - attempt`); both exhausting the range and an empty
observation stream end the loop with the fall-through `return False, False`.
Per iteration:
* `refresh_session()` false → `return False, False`;
* upload succeeded → `return True, False`;
* 409/duplicate → `return True, True`;
* 401/unauthorized → invalidate the shared auth flag, `return False, False`;
* 429/rate limit → `time.sleep(min(2 ** attempt * 2, 60))`, `continue`
  (the `for` loop advances `attempt`);
* network/timeout and `attempt < max_retries - 1` →
  `time.sleep(min(2 ** attempt, 30))`, `continue`;
* otherwise → if `attempt < max_retries - 1`, `time.sleep(2 ** attempt)` and
  iterate, else log the definitive failure and let the range end. -/
def uploadGo (maxRetries : Nat) : Nat → Nat → List AttemptOutcome → RetryResult
  | _, 0, _ => ⟨false, false, 0, []⟩
  | _, _ + 1, [] => ⟨false, false, 0, []⟩
  | attempt, fuel + 1, outcome :: rest =>
    match outcome with
    | .sessionExpired => ⟨false, false, 1, []⟩
    | .uploaded => ⟨true, false, 1, []⟩
    | .duplicate409 => ⟨true, true, 1, []⟩
    | .unauthorized401 => ⟨false, false, 1, []⟩
    | .rateLimited429 =>
        let wait := min (2 ^ attempt * 2) 60
        let r := uploadGo maxRetries (attempt + 1) fuel rest
        ⟨r.success, r.isDuplicate, r.attemptsUsed + 1, wait :: r.sleeps⟩
    | .networkTimeout =>
        if attempt < maxRetries - 1 then
          let wait := min (2 ^ attempt) 30
          let r := uploadGo maxRetries (attempt + 1) fuel rest
          ⟨r.success, r.isDuplicate, r.attemptsUsed + 1, wait :: r.sleeps⟩
        else
          let r := uploadGo maxRetries (attempt + 1) fuel rest
          ⟨r.success, r.isDuplicate, r.attemptsUsed + 1, r.sleeps⟩
    | .otherError =>
        if attempt < maxRetries - 1 then
          let wait := 2 ^ attempt
          let r := uploadGo maxRetries (attempt + 1) fuel rest
          ⟨r.success, r.isDuplicate, r.attemptsUsed + 1, wait :: r.sleeps⟩
        else
          let r := uploadGo maxRetries (attempt + 1) fuel rest
          ⟨r.success, r.isDuplicate, r.attemptsUsed + 1, r.sleeps⟩

/-- Embeds `GarminUploader._upload_file_with_retry` with the default
`max_retries = AppConfig.MAX_RETRY_ATTEMPTS`, for a file that exists and is
readable (the two preliminary guards return `(False, False)` before the loop
otherwise). -/
def uploadFileWithRetry (responses : List AttemptOutcome) : RetryResult :=
  uploadGo MAX_RETRY_ATTEMPTS 0 MAX_RETRY_ATTEMPTS responses

/-- The spec's per-file `UploadOutcome`. -/
inductive UploadOutcome where
  | success
  | duplicateOnRemote
  | failed
  deriving DecidableEq, Repr

/-- How `upload_files` buckets a completed future's `(success, is_duplicate)`
pair into the three statistics counters. -/
def outcomeOf (r : RetryResult) : UploadOutcome :=
  if r.success then
    if r.isDuplicate then .duplicateOnRemote else .success
  else .failed

/-- The `_upload_stats` counters of `GarminUploader`. -/
structure UploadStats where
  total : Nat
  succeeded : Nat
  failed : Nat
  duplicates : Nat
  deriving DecidableEq, Repr

/-- The body `upload_files` runs for each completed future: on
`success` bump the duplicate or success counter and — when the file is found
among `scan_files_async()`'s records — mark it processed in the ledger; on
failure bump the failure counter and leave the ledger alone. -/
def dispatchCompleted (scanResults : List FileInfo) (filePath : String)
    (r : RetryResult) (ts : String) (st : UploadStats × Ledger) :
    UploadStats × Ledger :=
  let stats := st.1
  let ledger := st.2
  if r.success then
    let stats' :=
      if r.isDuplicate then { stats with duplicates := stats.duplicates + 1 }
      else { stats with succeeded := stats.succeeded + 1 }
    match scanResults.find? (fun fi => fi.path == filePath) with
    | some fi => (stats', markFileProcessed fi ts ledger)
    | none => (stats', ledger)
  else
    ({ stats with failed := stats.failed + 1 }, ledger)

/-! ## Settings Store — `ConfigManager` (`fituploader.py`) -/

/-- A JSON value as `json.load` can return it (the default configuration uses
no floats, so numeric values are embedded as `Int`). -/
inductive JValue where
  | str (s : String)
  | bool (b : Bool)
  | int (n : Int)
  | obj (kvs : List (String × JValue))
  | arr (elems : List JValue)
  | null

/-- The Python runtime types `_validate_config` compares against
(`type(default_config[key])`). -/
inductive PyType where
  | pystr
  | pybool
  | pyint
  | pydict
  | pylist
  | pynone
  deriving DecidableEq, Repr

def pyTypeOf : JValue → PyType
  | .str _ => .pystr
  | .bool _ => .pybool
  | .int _ => .pyint
  | .obj _ => .pydict
  | .arr _ => .pylist
  | .null => .pynone

/-- Python `isinstance(value, expected_type)` on JSON-decoded values;
`bool` is a subclass of `int` in Python, so a boolean passes an `int` check. -/
def isinstanceOf (v : JValue) (t : PyType) : Bool :=
  match v, t with
  | .bool _, .pyint => true
  | v, t => pyTypeOf v == t

/-- Embeds `ConfigManager._get_default_config()`. -/
def defaultConfig : List (String × JValue) :=
  [("username", .str ""),
   ("backup_path", .str ""),
   ("processed_files", .obj []),
   ("auto_select_new", .bool true),
   ("max_concurrent_uploads", .int 2),
   ("auto_save_interval", .int 30),
   ("ui_theme", .str "default"),
   ("log_level", .str "INFO")]

/-- One iteration of `_validate_config`'s `for key, value in config.items()`
loop: keep the loaded value only when the key exists in the defaults and the
value passes the `isinstance` check against the default value's type
(otherwise log a warning and keep the current entry); keys absent from the
defaults are never copied over. -/
def validateStep (validated : List (String × JValue)) (kv : String × JValue) :
    List (String × JValue) :=
  match lookupKV kv.1 defaultConfig with
  | some d =>
      if isinstanceOf kv.2 (pyTypeOf d) then dictInsert kv.1 kv.2 validated
      else validated
  | none => validated

/-- Embeds `ConfigManager._validate_config(config)`: start from a copy of the
defaults (`validated = default_config.copy()`), then run the loop over the
loaded items in order. -/
def validateConfig (loaded : List (String × JValue)) : List (String × JValue) :=
  loaded.foldl validateStep defaultConfig

/-- What `ConfigManager.load` can observe from the settings file:
the file may be absent (`CONFIG_FILE.exists()` false), opening/reading it may
raise `OSError`, `json.load` may raise `JSONDecodeError`, or parsing yields a
JSON document. -/
inductive LoadInput where
  | missing
  | unreadable
  | unparseable
  | parsed (document : JValue)

/-- Embeds `ConfigManager.load`: an absent file installs the defaults; the
`except (json.JSONDecodeError, OSError)` handler turns an unreadable or
unparseable file into the defaults; a parsed object document is validated.
A parsed document whose top level is not an object reaches
`loaded_config.items()` in `_validate_config` and raises `AttributeError`,
which the handler does not catch — the exception propagates. -/
def configLoad (input : LoadInput) : Except String (List (String × JValue)) :=
  match input with
  | .missing => .ok defaultConfig
  | .unreadable => .ok defaultConfig
  | .unparseable => .ok defaultConfig
  | .parsed (.obj kvs) => .ok (validateConfig kvs)
  | .parsed _ => .error "AttributeError"

/-! ### Atomicity of `ConfigManager.save`

`save` serializes the configuration into `CONFIG_FILE.with_suffix('.tmp')`
(`open("w")` truncates, `json.dump` then writes the serialized document in
some sequence of chunks) and finally calls `temp_file.replace(CONFIG_FILE)`,
a single atomic rename.  We embed file contents as the list of chunks written
so far, and a crash as executing only a prefix of the operation sequence. -/

/-- One atomic file-system step of `ConfigManager.save`. -/
inductive FsOp where
  | truncTemp
  | writeTempChunk (chunk : String)
  | renameTempOverReal
  deriving DecidableEq, Repr

/-- Contents of the settings file and of the temp file (`none` = absent);
contents are the ordered chunks written into the file. -/
structure FsState where
  real : Option (List String)
  temp : Option (List String)
  deriving DecidableEq, Repr

def applyFsOp (s : FsState) : FsOp → FsState
  | .truncTemp => ⟨s.real, some []⟩
  | .writeTempChunk c => ⟨s.real, some ((s.temp.getD []) ++ [c])⟩
  | .renameTempOverReal => ⟨s.temp, none⟩

def runFsOps (s : FsState) (ops : List FsOp) : FsState := ops.foldl applyFsOp s

/-- The file-system operation sequence of one `ConfigManager.save` call whose
serialized document is written as `chunks`: truncate the temp file, write the
chunks in order, atomically rename the temp file over the settings file. -/
def saveOps (chunks : List String) : List FsOp :=
  .truncTemp :: (chunks.map FsOp.writeTempChunk ++ [.renameTempOverReal])

/-! ## Concrete scenario inputs -/

/-- The spec's average-substitution scenario: per-sample records whose power
values accumulate to `[100, 150, 200, 0]` (the last sample has no power
reading, so `_append_value` substitutes `0`), followed by a session summary
whose three averages are present but zero; cadence and heart rate mirror
power so the same rule is exercised on all three fields. -/
def avgScenarioInput : List FitMessage :=
  [.record (some 100) (some 100) (some 100) (some 25),
   .record (some 150) (some 150) (some 150) none,
   .record (some 200) (some 200) (some 200) none,
   .record none none none none,
   .session (some 0) (some 0) (some 0)]

/-- A concrete scanned file record for the dispatcher scenarios. -/
def sampleFileInfo : FileInfo :=
  ⟨"MyNewActivity-2.fit", "/data/MyNewActivity-2.fit", "0011223344556677", 512⟩

/-! ## Helper lemmas -/

theorem dictInsert_dictInsert {α : Type} (k : String) (v w : α)
    (l : List (String × α)) :
    dictInsert k v (dictInsert k w l) = dictInsert k v l := by
  induction l with
  | nil => simp [dictInsert]
  | cons hd tl ih =>
      obtain ⟨k', v'⟩ := hd
      by_cases h : k' = k
      · simp [dictInsert, h]
      · simp [dictInsert, h, ih]

theorem lookupKV_dictInsert_self {α : Type} (k : String) (v : α)
    (l : List (String × α)) :
    lookupKV k (dictInsert k v l) = some v := by
  induction l with
  | nil => simp [dictInsert, lookupKV]
  | cons hd tl ih =>
      obtain ⟨k', v'⟩ := hd
      by_cases h : k' = k
      · simp [dictInsert, lookupKV, h]
      · simp [dictInsert, lookupKV, h, ih]

theorem lookupKV_dictInsert_ne {α : Type} (k k' : String) (v : α)
    (l : List (String × α)) (h : k' ≠ k) :
    lookupKV k' (dictInsert k v l) = lookupKV k' l := by
  have h' : ¬(k = k') := fun hk => h hk.symm
  induction l with
  | nil => simp [dictInsert, lookupKV, h']
  | cons hd tl ih =>
      obtain ⟨k₁, v₁⟩ := hd
      by_cases h₁ : k₁ = k
      · subst h₁
        simp [dictInsert, lookupKV, h']
      · by_cases h₂ : k₁ = k'
        · simp [dictInsert, lookupKV, h₁, h₂, h]
        · simp [dictInsert, lookupKV, h₁, h₂, ih]

theorem any_dictInsert {α : Type} (k : String) (v : α) (l : List (String × α))
    (p : String × α → Bool) (hp : p (k, v) = true) :
    (dictInsert k v l).any p = true := by
  induction l with
  | nil => simp [dictInsert, hp]
  | cons hd tl ih =>
      obtain ⟨k', v'⟩ := hd
      by_cases h : k' = k
      · simp [dictInsert, h, hp]
      · simp [dictInsert, h, ih]

theorem filter_pos_idem (vals : List Nat) :
    (vals.filter (fun v => 0 < v)).filter (fun v => 0 < v)
      = vals.filter (fun v => 0 < v) := by
  induction vals with
  | nil => rfl
  | cons a tl ih =>
      by_cases h : 0 < a
      · simp [List.filter_cons, h, ih]
      · simp [List.filter_cons, h, ih]

/-! ## Claim theorems -/

/-- C10: the session-summary average helper `_calculate_avg` is total and
division-safe — on every accumulated sample list its value is the
integer-truncated mean of only the strictly positive entries (in Lean's `Nat`
arithmetic `0 / 0 = 0`, so the first equation pins the value on every list,
interior substituted zeros included), it returns `0` without dividing when
there is no strictly positive entry, dropping the non-positive entries does
not change its result (the substituted zeros are excluded from the average),
and on a non-empty all-positive list it is the integer-truncated arithmetic
mean. -/
theorem calculateAvg_safe_truncated_mean (vals : List Nat) :
    calculateAvg vals
      = (vals.filter (fun v => 0 < v)).sum / (vals.filter (fun v => 0 < v)).length
    ∧ (vals.filter (fun v => 0 < v) = [] → calculateAvg vals = 0)
    ∧ calculateAvg vals = calculateAvg (vals.filter (fun v => 0 < v))
    ∧ ((∀ v ∈ vals, 0 < v) → vals ≠ [] →
        calculateAvg vals = vals.sum / vals.length) := by
  refine ⟨?_, ?_, ?_, ?_⟩
  · simp only [calculateAvg]
    by_cases h : (vals.filter (fun v => 0 < v)).isEmpty
    · rw [if_pos h]
      rw [List.isEmpty_iff] at h
      rw [h]
      rfl
    · rw [if_neg h]
  · intro h
    simp [calculateAvg, h]
  · simp [calculateAvg, filter_pos_idem]
  · intro hpos hne
    have h : vals.filter (fun v => 0 < v) = vals :=
      List.filter_eq_self.mpr (fun a ha => by simpa using hpos a ha)
    simp [calculateAvg, h, List.isEmpty_iff, hne]

/-- Witness for C10: a list with an interior substituted zero averages to the
truncated mean of its strictly positive entries, and the all-positive
hypotheses are exercised at the spec's sample list. -/
theorem calculateAvg_safe_truncated_mean_witness :
    calculateAvg [100, 0, 150]
      = (([100, 0, 150] : List Nat).filter (fun v => 0 < v)).sum
        / (([100, 0, 150] : List Nat).filter (fun v => 0 < v)).length
    ∧ calculateAvg [100, 0, 150] = 125
    ∧ (∀ v ∈ ([100, 150, 200] : List Nat), 0 < v)
    ∧ ([100, 150, 200] : List Nat) ≠ []
    ∧ calculateAvg [100, 150, 200]
        = ([100, 150, 200] : List Nat).sum / ([100, 150, 200] : List Nat).length :=
  ⟨(calculateAvg_safe_truncated_mean [100, 0, 150]).1, by decide, by decide, by decide,
    (calculateAvg_safe_truncated_mean [100, 150, 200]).2.2.2 (by decide) (by decide)⟩

/-- C1 counterexample: with accumulated power values `[100, 150, 200, 0]` and
a zero average, the transform sets the average to `150` (the truncated mean
of the strictly positive samples), not to `112`; the legacy transformer of
`FitUploader.py` would set the float `112.5`, also not `112`. -/
theorem avgSubstitution_counterexample :
    calculateAvg [100, 150, 200, 0] = 150
    ∧ (150 : Nat) ≠ 112
    ∧ cleanupRecords avgScenarioInput =
        [.record (some 100) (some 100) (some 100) none,
         .record (some 150) (some 150) (some 150) none,
         .record (some 200) (some 200) (some 200) none,
         .record none none none none,
         .session (some 150) (some 150) (some 150)]
    ∧ legacyCalculateAvg [100, 150, 200, 0] = (225 : ℚ) / 2
    ∧ ((225 : ℚ) / 2) ≠ 112 := by
  refine ⟨by decide, by decide, by decide, ?_, by norm_num⟩
  simp [legacyCalculateAvg]
  norm_num

/-- C1 amended: when the transformer reaches a session-summary record whose
average value is absent or zero and samples `[100, 150, 200, 0]` have
accumulated (zero substituted for the missing value), it sets the session's
average to `150`, the integer-truncated mean of the strictly positive
samples only — the substituted zeros are excluded from the average; the same
rule applies to cadence, power and heart rate alike. -/
theorem avgSubstitution_amended :
    cleanupRecords avgScenarioInput =
      [.record (some 100) (some 100) (some 100) none,
       .record (some 150) (some 150) (some 150) none,
       .record (some 200) (some 200) (some 200) none,
       .record none none none none,
       .session (some 150) (some 150) (some 150)]
    ∧ (∀ vals : List Nat,
        calculateAvg vals = calculateAvg (vals.filter (fun v => 0 < v)))
    ∧ calculateAvg [100, 150, 200, 0]
        = ([100, 150, 200] : List Nat).sum / ([100, 150, 200] : List Nat).length := by
  refine ⟨by decide, ?_, by decide⟩
  intro vals
  simp [calculateAvg, filter_pos_idem]

/-- C6: marking a file processed twice in succession yields the same ledger
state as marking it once, and the file reports processed afterwards. -/
theorem markFileProcessed_idem (fi : FileInfo) (ts : String) (L : Ledger) :
    markFileProcessed fi ts (markFileProcessed fi ts L) = markFileProcessed fi ts L
    ∧ isFileProcessed fi (markFileProcessed fi ts L) = true := by
  constructor
  · exact dictInsert_dictInsert _ _ _ L
  · simp [isFileProcessed, markFileProcessed, lookupKV_dictInsert_self]

/-- C5: a fingerprint match in any ledger entry suffices for
`is_file_processed` — after a record with a non-empty hash is marked
processed, every record with the same hash (any name, any size: in
particular a renamed copy) reports processed, without consulting the
name+size composite key. -/
theorem isFileProcessed_fingerprint (r r' : FileInfo) (ts : String) (L : Ledger)
    (hhash : r.fileHash ≠ "") (hsame : r'.fileHash = r.fileHash) :
    isFileProcessed r' (markFileProcessed r ts L) = true := by
  have h1 : (r'.fileHash != "") = true := by
    rw [hsame]
    exact bne_iff_ne.mpr hhash
  have h2 : (dictInsert (fileKey r)
        (LedgerValue.entry ⟨ts, r.fileHash, r.sizeBytes, r.path⟩) L).any
      (fun kv => hashMatches r'.fileHash kv.2) = true := by
    apply any_dictInsert
    simp [hashMatches, hsame]
  unfold isFileProcessed markFileProcessed
  rw [h1, h2]
  rfl

/-- Witness for C5: a renamed copy (same hash, different name and path) of a
marked file reports processed. -/
theorem isFileProcessed_fingerprint_witness :
    let r : FileInfo := ⟨"MyNewActivity-1.fit", "/data/MyNewActivity-1.fit", "a1b2c3d4e5f60718", 2048⟩
    let r' : FileInfo := ⟨"Renamed.fit", "/backup/Renamed.fit", "a1b2c3d4e5f60718", 2048⟩
    r.fileHash ≠ "" ∧ r'.fileHash = r.fileHash
    ∧ isFileProcessed r' (markFileProcessed r "2024-01-01T00:00:00" []) = true :=
  ⟨by decide, by decide,
    isFileProcessed_fingerprint _ _ "2024-01-01T00:00:00" [] (by decide) (by decide)⟩

/-- C2: a status-409 duplicate response makes the upload attempt return the
success-with-duplicate pair, the dispatcher reports `DuplicateOnRemote` for
the file, and — the file being among the scanned records — a
processed-files ledger entry is written for it, the very same ledger update
a plain `Success` outcome produces. -/
theorem duplicate409_success_equivalent (scanResults : List FileInfo)
    (fi : FileInfo) (ts : String) (st : UploadStats × Ledger)
    (rest rest' : List AttemptOutcome)
    (hfind : scanResults.find? (fun x => x.path == fi.path) = some fi) :
    uploadFileWithRetry (.duplicate409 :: rest) = ⟨true, true, 1, []⟩
    ∧ outcomeOf (uploadFileWithRetry (.duplicate409 :: rest)) = .duplicateOnRemote
    ∧ (dispatchCompleted scanResults fi.path
        (uploadFileWithRetry (.duplicate409 :: rest)) ts st).2
        = markFileProcessed fi ts st.2
    ∧ (dispatchCompleted scanResults fi.path
        (uploadFileWithRetry (.duplicate409 :: rest)) ts st).2
        = (dispatchCompleted scanResults fi.path
            (uploadFileWithRetry (.uploaded :: rest')) ts st).2 := by
  refine ⟨rfl, rfl, ?_, ?_⟩
  · simp [dispatchCompleted, uploadFileWithRetry, uploadGo, MAX_RETRY_ATTEMPTS, hfind]
  · simp [dispatchCompleted, uploadFileWithRetry, uploadGo, MAX_RETRY_ATTEMPTS, hfind]

/-- Witness for C2: one file in the batch, duplicate on the remote. -/
theorem duplicate409_success_equivalent_witness :
    [sampleFileInfo].find? (fun x => x.path == sampleFileInfo.path) = some sampleFileInfo
    ∧ outcomeOf (uploadFileWithRetry [.duplicate409]) = .duplicateOnRemote
    ∧ (dispatchCompleted [sampleFileInfo] sampleFileInfo.path
        (uploadFileWithRetry [.duplicate409]) "t0" (⟨1, 0, 0, 0⟩, [])).2
        = markFileProcessed sampleFileInfo "t0" [] := by
  refine ⟨by decide, ?_, ?_⟩
  · exact (duplicate409_success_equivalent [sampleFileInfo] sampleFileInfo "t0"
      (⟨1, 0, 0, 0⟩, []) [] [] (by decide)).2.1
  · exact (duplicate409_success_equivalent [sampleFileInfo] sampleFileInfo "t0"
      (⟨1, 0, 0, 0⟩, []) [] [] (by decide)).2.2.1

/-- C3 counterexample: a file whose every attempt is rate-limited is retried
through the general attempt counter — after exactly
`MAX_RETRY_ATTEMPTS = 3` rate-limited attempts (with backoff sleeps 2, 4, 8
seconds) the loop exhausts and the file fails, so rate-limit retries consume
general per-file attempts and are not governed by any separate inner cap. -/
theorem rateLimit_counterexample :
    uploadFileWithRetry [.rateLimited429, .rateLimited429, .rateLimited429]
      = ⟨false, false, 3, [2, 4, 8]⟩
    ∧ outcomeOf (uploadFileWithRetry
        [.rateLimited429, .rateLimited429, .rateLimited429]) = .failed := by
  exact ⟨by decide, by decide⟩

/-- C3 amended: a rate-limited attempt sleeps `min(2 ** attempt * 2, 60)`
seconds — exponential backoff capped at the 60-second ceiling — and then
retries, but the retry consumes one of the general
`AppConfig.MAX_RETRY_ATTEMPTS` per-file attempts: there is no separate inner
cap, so a file rate-limited on every attempt is reported failed after the
general maximum of 3 attempts. -/
theorem rateLimit_amended (rest : List AttemptOutcome) :
    uploadFileWithRetry
        (.rateLimited429 :: .rateLimited429 :: .rateLimited429 :: rest)
      = ⟨false, false, MAX_RETRY_ATTEMPTS,
          [min (2 ^ 0 * 2) 60, min (2 ^ 1 * 2) 60, min (2 ^ 2 * 2) 60]⟩
    ∧ (uploadFileWithRetry
        (.rateLimited429 :: .rateLimited429 :: .rateLimited429 :: rest)).sleeps.all
          (fun w => w ≤ 60) = true
    ∧ outcomeOf (uploadFileWithRetry
        (.rateLimited429 :: .rateLimited429 :: .rateLimited429 :: rest)) = .failed := by
  exact ⟨rfl, rfl, rfl⟩

/-- C4: a file whose every attempt raises a transient network/timeout error
is attempted exactly `MAX_RETRY_ATTEMPTS = 3` times, then reported `Failed`;
the failure counter is bumped and no processed-files ledger entry is written
(the ledger is unchanged). -/
theorem boundedRetries_failed_no_ledger_write (rest : List AttemptOutcome)
    (scanResults : List FileInfo) (filePath ts : String)
    (st : UploadStats × Ledger) :
    uploadFileWithRetry
        (.networkTimeout :: .networkTimeout :: .networkTimeout :: rest)
      = ⟨false, false, MAX_RETRY_ATTEMPTS, [min (2 ^ 0) 30, min (2 ^ 1) 30]⟩
    ∧ outcomeOf (uploadFileWithRetry
        (.networkTimeout :: .networkTimeout :: .networkTimeout :: rest)) = .failed
    ∧ (dispatchCompleted scanResults filePath
        (uploadFileWithRetry
          (.networkTimeout :: .networkTimeout :: .networkTimeout :: rest)) ts st).2
        = st.2
    ∧ (dispatchCompleted scanResults filePath
        (uploadFileWithRetry
          (.networkTimeout :: .networkTimeout :: .networkTimeout :: rest)) ts st).1.failed
        = st.1.failed + 1
    ∧ (dispatchCompleted scanResults filePath
        (uploadFileWithRetry
          (.networkTimeout :: .networkTimeout :: .networkTimeout :: rest)) ts st).1.succeeded
        = st.1.succeeded := by
  exact ⟨rfl, rfl, rfl, rfl, rfl⟩

theorem isLap_lap : isLap .lap = true := rfl

theorem isLap_record (c p h t : Option Nat) : isLap (.record c p h t) = false := rfl

theorem isLap_session (a b c : Option Nat) : isLap (.session a b c) = false := rfl

theorem isLap_other (n : Nat) : isLap (.other n) = false := rfl

theorem isOther_lap : isOther .lap = false := rfl

theorem isOther_record (c p h t : Option Nat) : isOther (.record c p h t) = false := rfl

theorem isOther_session (a b c : Option Nat) : isOther (.session a b c) = false := rfl

theorem isOther_other (n : Nat) : isOther (.other n) = true := rfl

theorem kindOf_record (c p h t : Option Nat) : kindOf (.record c p h t) = .record := rfl

theorem kindOf_session (a b c : Option Nat) : kindOf (.session a b c) = .session := rfl

/-- The transformed stream contains no lap-summary record, whatever the
accumulator state. -/
theorem cleanupGo_no_lap (input : List FitMessage) :
    ∀ cad pow hr, (cleanupGo input cad pow hr).all (fun m => !isLap m) = true := by
  induction input with
  | nil => intro cad pow hr; rfl
  | cons m rest ih =>
      intro cad pow hr
      cases m with
      | lap => simp only [cleanupGo]; exact ih cad pow hr
      | record c p h t =>
          simp only [cleanupGo, List.all_cons, isLap_record, Bool.not_false,
            Bool.true_and]
          exact ih _ _ _
      | session a b c =>
          simp only [cleanupGo, List.all_cons, isLap_session, Bool.not_false,
            Bool.true_and]
          exact ih _ _ _
      | other n =>
          simp only [cleanupGo, List.all_cons, isLap_other, Bool.not_false,
            Bool.true_and]
          exact ih _ _ _

/-- The transformed stream has exactly the input's non-lap records, kind for
kind, in the original relative order. -/
theorem cleanupGo_kinds (input : List FitMessage) :
    ∀ cad pow hr, (cleanupGo input cad pow hr).map kindOf
      = (input.filter (fun m => !isLap m)).map kindOf := by
  induction input with
  | nil => intro cad pow hr; rfl
  | cons m rest ih =>
      intro cad pow hr
      cases m with
      | lap =>
          simp only [cleanupGo, List.filter_cons, isLap_lap, Bool.not_true,
            if_neg Bool.false_ne_true]
          exact ih cad pow hr
      | record c p h t =>
          simp only [cleanupGo, List.filter_cons, isLap_record, Bool.not_false,
            if_pos rfl, List.map_cons, kindOf_record]
          exact congrArg _ (ih _ _ _)
      | session a b c =>
          simp only [cleanupGo, List.filter_cons, isLap_session, Bool.not_false,
            if_pos rfl, List.map_cons, kindOf_session]
          exact congrArg _ (ih _ _ _)
      | other n =>
          simp only [cleanupGo, List.filter_cons, isLap_other, Bool.not_false,
            if_pos rfl, List.map_cons]
          exact congrArg _ (ih _ _ _)

/-- Records that are neither lap, per-sample nor session-summary pass through
the transform byte-identical and in order. -/
theorem cleanupGo_others (input : List FitMessage) :
    ∀ cad pow hr, (cleanupGo input cad pow hr).filter isOther
      = input.filter isOther := by
  induction input with
  | nil => intro cad pow hr; rfl
  | cons m rest ih =>
      intro cad pow hr
      cases m with
      | lap =>
          simp only [cleanupGo, List.filter_cons, isOther_lap,
            if_neg Bool.false_ne_true]
          exact ih cad pow hr
      | record c p h t =>
          simp only [cleanupGo, List.filter_cons, isOther_record,
            if_neg Bool.false_ne_true]
          exact ih _ _ _
      | session a b c =>
          simp only [cleanupGo, List.filter_cons, isOther_session,
            if_neg Bool.false_ne_true]
          exact ih _ _ _
      | other n =>
          simp only [cleanupGo, List.filter_cons, isOther_other, if_true]
          exact congrArg _ (ih _ _ _)

/-- C7: the transform is pure and order-preserving — it succeeds on a
readable source, writes the transformed stream to the destination only, and
leaves the source (and every other path) untouched; the output stream has
the input's records in their original relative order with every lap-summary
record removed, and every record that is neither lap, per-sample nor
session-summary passes through unmodified. -/
theorem cleanupFitFile_pure_order_preserving (input : List FitMessage)
    (fs : FitFs) (src dst other : String) (hsrc : fs src = some input)
    (hne : src ≠ dst) (hother : other ≠ dst) :
    (cleanupFitFile fs src dst).1 = true
    ∧ (cleanupFitFile fs src dst).2 src = fs src
    ∧ (cleanupFitFile fs src dst).2 other = fs other
    ∧ (cleanupFitFile fs src dst).2 dst = some (cleanupRecords input)
    ∧ (cleanupRecords input).all (fun m => !isLap m) = true
    ∧ (cleanupRecords input).map kindOf
        = (input.filter (fun m => !isLap m)).map kindOf
    ∧ (cleanupRecords input).filter isOther = input.filter isOther := by
  refine ⟨?_, ?_, ?_, ?_, cleanupGo_no_lap input [] [] [],
    cleanupGo_kinds input [] [] [], cleanupGo_others input [] [] []⟩
  · simp [cleanupFitFile, hsrc]
  · simp [cleanupFitFile, hsrc, hne]
  · simp [cleanupFitFile, hsrc, hother]
  · simp [cleanupFitFile, hsrc, cleanupRecords]

/-- Witness for C7 on the concrete scenario stream extended with a lap and an
opaque record. -/
theorem cleanupFitFile_pure_order_preserving_witness :
    (fun p => if p = "/data/a.fit" then some (FitMessage.lap :: FitMessage.other 7 :: avgScenarioInput) else none :
        FitFs) "/data/a.fit" = some (FitMessage.lap :: FitMessage.other 7 :: avgScenarioInput)
    ∧ "/data/a.fit" ≠ "/backup/b.fit"
    ∧ "/untouched.fit" ≠ "/backup/b.fit"
    ∧ (cleanupFitFile
        (fun p => if p = "/data/a.fit" then some (FitMessage.lap :: FitMessage.other 7 :: avgScenarioInput) else none)
        "/data/a.fit" "/backup/b.fit").2 "/data/a.fit"
        = some (FitMessage.lap :: FitMessage.other 7 :: avgScenarioInput)
    ∧ (cleanupRecords (FitMessage.lap :: FitMessage.other 7 :: avgScenarioInput)).all
        (fun m => !isLap m) = true := by
  refine ⟨by decide, by decide, by decide, ?_, ?_⟩
  · exact (cleanupFitFile_pure_order_preserving
      (FitMessage.lap :: FitMessage.other 7 :: avgScenarioInput) _ _ _ "/untouched.fit"
      (by decide) (by decide) (by decide)).2.1.trans (by decide)
  · exact (cleanupFitFile_pure_order_preserving
      (FitMessage.lap :: FitMessage.other 7 :: avgScenarioInput)
      (fun p => if p = "/data/a.fit" then some (FitMessage.lap :: FitMessage.other 7 :: avgScenarioInput) else none)
      "/data/a.fit" "/backup/b.fit" "/untouched.fit"
      (by decide) (by decide) (by decide)).2.2.2.2.1

theorem runFsOps_cons (s : FsState) (o : FsOp) (ops : List FsOp) :
    runFsOps s (o :: ops) = runFsOps (applyFsOp s o) ops := rfl

theorem runFsOps_append (s : FsState) (xs ys : List FsOp) :
    runFsOps s (xs ++ ys) = runFsOps (runFsOps s xs) ys := by
  simp [runFsOps, List.foldl_append]

/-- Writing chunks into the temp file appends them there and never touches
the settings file. -/
theorem runFsOps_writes (cs : List String) :
    ∀ (r : Option (List String)) (t : List String),
      runFsOps ⟨r, some t⟩ (cs.map FsOp.writeTempChunk) = ⟨r, some (t ++ cs)⟩ := by
  induction cs with
  | nil => intro r t; simp [runFsOps]
  | cons c rest ih =>
      intro r t
      simp only [List.map_cons, runFsOps_cons, applyFsOp, Option.getD_some]
      exact (ih r (t ++ [c])).trans (by simp)

/-- C8: `ConfigManager.save` is crash-atomic — executing any prefix of its
file-system operations (truncate temp, write the serialized chunks, atomic
rename) leaves the real settings file holding either the complete pre-save
content or the complete post-save content, and a completed save leaves the
post-save content. -/
theorem save_crash_atomic (chunks : List String)
    (real0 temp0 : Option (List String)) (k : Nat) :
    ((runFsOps ⟨real0, temp0⟩ ((saveOps chunks).take k)).real = real0
      ∨ (runFsOps ⟨real0, temp0⟩ ((saveOps chunks).take k)).real = some chunks)
    ∧ (runFsOps ⟨real0, temp0⟩ (saveOps chunks)).real = some chunks := by
  constructor
  · match k with
    | 0 => exact Or.inl rfl
    | j + 1 =>
        rw [saveOps, List.take_succ_cons, runFsOps_cons]
        simp only [applyFsOp]
        by_cases hj : j ≤ (chunks.map FsOp.writeTempChunk).length
        · rw [List.take_append_of_le_length hj, ← List.map_take,
            runFsOps_writes]
          exact Or.inl rfl
        · push_neg at hj
          rw [List.length_map] at hj
          have hlen : (chunks.map FsOp.writeTempChunk
              ++ [FsOp.renameTempOverReal]).length ≤ j := by
            simp only [List.length_append, List.length_map, List.length_cons,
              List.length_nil]
            omega
          rw [List.take_of_length_le hlen, runFsOps_append, runFsOps_writes]
          exact Or.inr rfl
  · rw [saveOps, runFsOps_cons]
    show (runFsOps ⟨real0, some []⟩ _).real = _
    rw [runFsOps_append, runFsOps_writes]
    rfl

/-- C9 counterexample: a settings file that parses to a JSON document whose
top level is not an object (here an empty array) reaches
`loaded_config.items()` inside `_validate_config` and raises an uncaught
`AttributeError` — `load` does hard-fail on such a file instead of falling
back to the defaults. -/
theorem configLoad_nonObject_counterexample :
    configLoad (.parsed (.arr [])) = .error "AttributeError" := rfl

/-- Looking up a key the defaults do not know stays unanswered through the
whole validation loop. -/
theorem validateStep_fold_lookup_none (k : String)
    (hk : lookupKV k defaultConfig = none) :
    ∀ (kvs acc : List (String × JValue)),
      lookupKV k acc = none → lookupKV k (kvs.foldl validateStep acc) = none := by
  intro kvs
  induction kvs with
  | nil => intro acc hacc; exact hacc
  | cons kv rest ih =>
      intro acc hacc
      have hstep : lookupKV k (validateStep acc kv) = none := by
        unfold validateStep
        cases hdef : lookupKV kv.1 defaultConfig with
        | none => simp only [hdef]; exact hacc
        | some d =>
            have hne : k ≠ kv.1 := by
              intro h
              rw [← h, hk] at hdef
              exact Option.noConfusion hdef
            simp only [hdef]
            by_cases hinst : isinstanceOf kv.2 (pyTypeOf d) = true
            · simp only [hinst, if_true]
              exact (lookupKV_dictInsert_ne kv.1 k kv.2 acc hne).trans hacc
            · simp only [Bool.not_eq_true] at hinst
              simp only [hinst, Bool.false_eq_true, if_false]
              exact hacc
      simp only [List.foldl_cons]
      exact ih _ hstep

/-- A default key all of whose loaded occurrences fail the `isinstance`
check keeps its current (default) value through the validation loop. -/
theorem validateStep_fold_lookup_kept (k : String) (d : JValue)
    (hd : lookupKV k defaultConfig = some d) :
    ∀ (kvs acc : List (String × JValue)),
      (kvs.filter (fun kv => kv.1 == k)).all
        (fun kv => !isinstanceOf kv.2 (pyTypeOf d)) = true →
      lookupKV k acc = some d →
      lookupKV k (kvs.foldl validateStep acc) = some d := by
  intro kvs
  induction kvs with
  | nil => intro acc _ hacc; exact hacc
  | cons kv rest ih =>
      intro acc hbad hacc
      by_cases hk1 : kv.1 = k
      · have hfil : (kv :: rest).filter (fun kv => kv.1 == k)
            = kv :: rest.filter (fun kv => kv.1 == k) := by
          simp [List.filter_cons, hk1]
        rw [hfil, List.all_cons, Bool.and_eq_true] at hbad
        have hinst : isinstanceOf kv.2 (pyTypeOf d) = false := by
          have := hbad.1
          simpa using this
        have hstep : validateStep acc kv = acc := by
          unfold validateStep
          rw [hk1, hd]
          simp [hinst]
        simp only [List.foldl_cons, hstep]
        exact ih _ hbad.2 hacc
      · have hfil : (kv :: rest).filter (fun kv => kv.1 == k)
            = rest.filter (fun kv => kv.1 == k) := by
          simp [List.filter_cons, hk1]
        rw [hfil] at hbad
        have hne : k ≠ kv.1 := fun h => hk1 h.symm
        have hstep : lookupKV k (validateStep acc kv) = some d := by
          unfold validateStep
          cases hdef : lookupKV kv.1 defaultConfig with
          | none => simp only [hdef]; exact hacc
          | some d' =>
              simp only [hdef]
              by_cases hinst : isinstanceOf kv.2 (pyTypeOf d') = true
              · simp only [hinst, if_true]
                exact (lookupKV_dictInsert_ne kv.1 k kv.2 acc hne).trans hacc
              · simp only [Bool.not_eq_true] at hinst
                simp only [hinst, Bool.false_eq_true, if_false]
                exact hacc
        simp only [List.foldl_cons]
        exact ih _ hbad hstep

/-- C9 amended: settings load never hard-fails on a missing, unreadable or
unparseable settings file (it yields the full default configuration) nor on
any JSON-object document, where keys absent from the default schema are
dropped and a key every occurrence of which fails the `isinstance` check
against the default value's type keeps the default value (with a logged
warning); only a parseable document whose top level is not an object
escapes the handler. -/
theorem configLoad_validates (kvs : List (String × JValue)) (k : String)
    (d : JValue) (hdef : lookupKV k defaultConfig = some d)
    (hbad : (kvs.filter (fun kv => kv.1 == k)).all
        (fun kv => !isinstanceOf kv.2 (pyTypeOf d)) = true) :
    configLoad (.parsed (.obj kvs)) = .ok (validateConfig kvs)
    ∧ configLoad .unparseable = .ok defaultConfig
    ∧ configLoad .unreadable = .ok defaultConfig
    ∧ configLoad .missing = .ok defaultConfig
    ∧ (∀ k', lookupKV k' defaultConfig = none →
        lookupKV k' (validateConfig kvs) = none)
    ∧ lookupKV k (validateConfig kvs) = some d := by
  refine ⟨rfl, rfl, rfl, rfl, ?_, ?_⟩
  · intro k' hk'
    exact validateStep_fold_lookup_none k' hk' kvs defaultConfig hk'
  · exact validateStep_fold_lookup_kept k d hdef kvs defaultConfig hbad hdef

/-- Witness for C9: a document with an unknown key and a wrongly typed
known key validates to the default for the known key. -/
theorem configLoad_validates_witness :
    lookupKV "max_concurrent_uploads" defaultConfig = some (.int 2)
    ∧ (([("bogus_key", JValue.int 1),
         ("max_concurrent_uploads", JValue.str "two")].filter
        (fun kv => kv.1 == "max_concurrent_uploads")).all
        (fun kv => !isinstanceOf kv.2 (pyTypeOf (JValue.int 2)))) = true
    ∧ lookupKV "max_concurrent_uploads"
        (validateConfig [("bogus_key", .int 1),
          ("max_concurrent_uploads", .str "two")]) = some (.int 2) :=
  ⟨rfl, rfl,
    (configLoad_validates
      [("bogus_key", .int 1), ("max_concurrent_uploads", .str "two")]
      "max_concurrent_uploads" (.int 2) rfl rfl).2.2.2.2.2⟩

end FitUploader
